import Mathlib

/-!
Verification of the SoulReader multi-provider generation layer and
annotation/memory lifecycle controller.

JavaScript strings are embedded as `List Char` (named `Str`); JavaScript's
truthiness on strings (`""` is falsy), `trim`, `endsWith`, `includes`,
`slice` and global `replace` are modelled explicitly below.  Parsed JSON
bodies are embedded as the inductive `Json`; numbers are modelled as
integers (all numeric literals relevant to the claims are integral).
Temperatures are embedded as rationals (`0.3 = 3/10`); the code only
passes them through, never computes with them.
-/

/-- JavaScript strings, embedded as lists of characters. -/
abbrev Str := List Char

/-- JS `a || b` for strings: the empty string is falsy. -/
def jsOrStr (a b : Str) : Str := if a = [] then b else a

/-- The JS whitespace characters relevant to `String.prototype.trim`
(space, tab, line feed, carriage return; the exotic Unicode space classes
are not used by this repository). -/
def isJsWs (c : Char) : Bool := c = ' ' || c = '\t' || c = '\n' || c = '\r'

/-- Leading-whitespace removal. -/
def trimLeft (s : Str) : Str := s.dropWhile isJsWs

/-- Trailing-whitespace removal. -/
def trimRight (s : Str) : Str := ((s.reverse).dropWhile isJsWs).reverse

/-- JS `String.prototype.trim`. -/
def jsTrim (s : Str) : Str := trimRight (trimLeft s)

/-- Whitespace-freeness of a string (URLs and path fragments satisfy
it); under it `jsTrim` is the identity. -/
def wsFree (s : Str) : Bool := s.all (fun c => !isJsWs c)

/-- JS `s.endsWith (t)`: suffix test, as a Bool. -/
def jsEndsWith (s pat : Str) : Bool := decide (pat <:+ s)

/-- JS `s.includes (pat)`: substring containment, as a Bool. -/
def jsIncludes (s pat : Str) : Bool := decide (pat <:+: s)

/-- One pass of `String.prototype.replace (/pat/g, '')`: removes every
left-to-right non-overlapping occurrence of `pat`, continuing after each
removed occurrence.  Fueled for structural termination; the fuel is
always instantiated with the length of the subject string, which
dominates the recursion depth. -/
def stripPatAux (pat : Str) : Nat → Str → Str
  | 0, s => s
  | _ + 1, [] => []
  | fuel + 1, c :: rest =>
    if pat.isPrefixOf (c :: rest) && !pat.isEmpty then
      stripPatAux pat fuel (rest.drop (pat.length - 1))
    else
      c :: stripPatAux pat fuel rest

/-- JS `s.replace (/pat/g, '')`. -/
def stripPat (pat s : Str) : Str := stripPatAux pat s.length s

/-- The backtick character (written by code point to keep it out of the
source text). -/
def backtick : Char := Char.ofNat 96

/-- Absence of backticks in a string: under it the fence-stripping
passes of `cleanJSON` are the identity. -/
def btFree (s : Str) : Bool := s.all (fun c => c != backtick)

/-- src/services/geminiService.ts, `cleanJSON`:
strips every occurrence of ```` ```json ````, then every occurrence of
```` ``` ````, then trims. -/
def cleanJSON (text : Str) : Str :=
  jsTrim (stripPat "```".toList (stripPat "```json".toList text))

/-- The two provider families selected by `EngineConfig.provider`. -/
inductive Provider where
  | gemini
  | openai
deriving DecidableEq, Repr

/-- src/types.ts, `EngineConfig`: the connection and behaviour fields the
core reads (presentation fields are omitted as out of scope). -/
structure EngineConfig where
  provider : Provider
  baseUrl : Str
  apiKey : Str
  model : Str
  temperature : ℚ
  autonomousReading : Bool
  autoAnnotationCount : Nat
  autoMemoryThreshold : Nat
deriving Repr

/-- src/services/geminiService.ts, `getGeminiEndpoint`, base-URL
normalization (default, trim, trailing-slash strip, `v1beta`-suffix
strip): `slice (0, -version.length - 1)` is `take (length - 7)`, with
the same clamping at zero as JS `slice`. -/
def geminiNormalizeBase (raw : Str) : Str :=
  let baseUrl := jsTrim (jsOrStr raw "https://generativelanguage.googleapis.com".toList)
  let baseUrl := if jsEndsWith baseUrl "/".toList then baseUrl.dropLast else baseUrl
  if jsEndsWith baseUrl "v1beta".toList then
    baseUrl.take (baseUrl.length - ("v1beta".toList.length + 1))
  else baseUrl

/-- src/services/geminiService.ts, `getGeminiEndpoint` (URL component).
`envKey` models `process.env.API_KEY`; the headers carry no information
beyond the key and are omitted. -/
def getGeminiEndpoint (config : EngineConfig) (envKey : Str) (method : Str) : Str :=
  let apiKey := jsTrim (jsOrStr config.apiKey envKey)
  let baseUrl := geminiNormalizeBase config.baseUrl
  let model := jsOrStr config.model "gemini-3-flash-preview".toList
  baseUrl ++ "/".toList ++ "v1beta".toList ++ "/models/".toList ++ model
    ++ ":".toList ++ method ++ "?key=".toList ++ apiKey

/-- src/services/geminiService.ts, `getOpenAIEndpoint`, base-URL
normalization (default, trim, trailing-slash strip, conditional
`/v1` / `/chat/completions` append). -/
def openAINormalizeBase (raw : Str) : Str :=
  let baseUrl := jsTrim (jsOrStr raw "https://api.siliconflow.cn".toList)
  let baseUrl := if jsEndsWith baseUrl "/".toList then baseUrl.dropLast else baseUrl
  if !jsIncludes baseUrl "/chat/completions".toList then
    (if !jsEndsWith baseUrl "/v1".toList then baseUrl ++ "/v1".toList else baseUrl)
      ++ "/chat/completions".toList
  else
    baseUrl

/-- src/services/geminiService.ts, `getOpenAIEndpoint` (URL component;
the bearer header carries no information beyond the key and is
omitted). -/
def getOpenAIEndpoint (config : EngineConfig) : Str :=
  openAINormalizeBase config.baseUrl

/- Parsed JSON values.  Numbers are modelled as integers: every numeric
literal handled by the claims is integral.  The element and field lists
are mutual inductives (rather than `List`) so that all recursion over
values is structural and evaluates in the kernel. -/
mutual
inductive Json where
  | null
  | bool (b : Bool)
  | num (n : Int)
  | str (s : Str)
  | arr (elems : JsonList)
  | obj (fields : JsonFields)

inductive JsonList where
  | nil
  | cons (head : Json) (tail : JsonList)

inductive JsonFields where
  | nil
  | cons (key : Str) (value : Json) (tail : JsonFields)
end

deriving instance DecidableEq for Json

/-- Conversion from an ordinary list of values. -/
def JsonList.ofList : List Json → JsonList
  | [] => .nil
  | j :: rest => .cons j (JsonList.ofList rest)

/-- Conversion from an ordinary association list. -/
def JsonFields.ofList : List (Str × Json) → JsonFields
  | [] => .nil
  | f :: rest => .cons f.1 f.2 (JsonFields.ofList rest)

/-- Element lookup by position. -/
def JsonList.get? : JsonList → Nat → Option Json
  | .nil, _ => none
  | .cons j _, 0 => some j
  | .cons _ tail, i + 1 => tail.get? i

/-- First binding of a key (JSON.parse keeps the last duplicate key; no
input relevant to the claims has duplicates). -/
def JsonFields.lookup : JsonFields → Str → Option Json
  | .nil, _ => none
  | .cons k v tail, key => if k = key then some v else tail.lookup key

/-- Property access `v.key` / `v?.key`: a field of a JSON object, `none`
for a missing field or a non-object. -/
def Json.getField? : Json → Str → Option Json
  | .obj fs, key => fs.lookup key
  | _, _ => none

/-- Index access `v?.[i]`: an element of a JSON array, `none` out of
range or for a non-array. -/
def Json.getIdx? : Json → Nat → Option Json
  | .arr xs, i => xs.get? i
  | _, _ => none

/-- The payload of a JSON string value. -/
def Json.asString? : Json → Option Str
  | .str s => some s
  | _ => none

/-- The character classes of JSON / the scanner below. -/
def isJsonDigit (c : Char) : Bool := '0' ≤ c && c ≤ '9'

/-- Digit-run scanner: accumulates a decimal value, returns it with the
unconsumed remainder. -/
def scanDigits : Str → Nat → Nat × Str
  | [], acc => (acc, [])
  | c :: rest, acc =>
    if isJsonDigit c then scanDigits rest (acc * 10 + (c.toNat - 48))
    else (acc, c :: rest)

/-- String-literal body scanner: consumes up to the closing quote.
Escape sequences are not modelled (no input relevant to the claims
contains them); a backslash makes the scan fail. -/
def scanStringBody : Str → Option (Str × Str)
  | [] => none
  | c :: rest =>
    if c = '"' then some ([], rest)
    else if c = '\\' then none
    else (scanStringBody rest).map (fun p => (c :: p.1, p.2))

/-- Tasks of the JSON scanner: a value, the elements of an array, or the
members of an object (`first` is true before the first element). -/
inductive JsonTask where
  | val
  | arrElems (first : Bool)
  | objMembers (first : Bool)

/-- Results of the JSON scanner. -/
inductive JsonScanResult where
  | v (j : Json) (rest : Str)
  | elems (xs : List Json) (rest : Str)
  | members (fs : List (Str × Json)) (rest : Str)

/-- One fueled JSON scanner covering values, array elements and object
members (a single function so that recursion is structural on the fuel
and evaluation reduces in the kernel).  Models `JSON.parse` on the
fragment of JSON exercised by this repository: `null`, booleans, integer
numbers, escape-free strings, arrays, objects. -/
def jsonScan : Nat → JsonTask → Str → Option JsonScanResult
  | 0, _, _ => none
  | fuel + 1, .val, s =>
    match trimLeft s with
    | [] => none
    | c :: rest =>
      if c = 'n' then
        if "ull".toList.isPrefixOf rest then some (.v .null (rest.drop 3)) else none
      else if c = 't' then
        if "rue".toList.isPrefixOf rest then some (.v (.bool true) (rest.drop 3)) else none
      else if c = 'f' then
        if "alse".toList.isPrefixOf rest then some (.v (.bool false) (rest.drop 4)) else none
      else if c = '"' then
        (scanStringBody rest).map (fun p => .v (.str p.1) p.2)
      else if c = '-' then
        match rest with
        | d :: _ =>
          if isJsonDigit d then
            let p := scanDigits rest 0
            some (.v (.num (-(p.1 : Int))) p.2)
          else none
        | [] => none
      else if isJsonDigit c then
        let p := scanDigits (c :: rest) 0
        some (.v (.num (p.1 : Int)) p.2)
      else if c = '[' then
        match jsonScan fuel (.arrElems true) rest with
        | some (.elems xs r) => some (.v (.arr (JsonList.ofList xs)) r)
        | _ => none
      else if c = Char.ofNat 123 then
        match jsonScan fuel (.objMembers true) rest with
        | some (.members fs r) => some (.v (.obj (JsonFields.ofList fs)) r)
        | _ => none
      else none
  | fuel + 1, .arrElems first, s =>
    match trimLeft s with
    | [] => none
    | c :: rest =>
      if c = ']' then
        if first then some (.elems [] rest) else none
      else
        match jsonScan fuel .val (c :: rest) with
        | some (.v j r) =>
          match trimLeft r with
          | ']' :: r' => some (.elems [j] r')
          | ',' :: r' =>
            match jsonScan fuel (.arrElems false) r' with
            | some (.elems xs r'') =>
              if xs.isEmpty then none else some (.elems (j :: xs) r'')
            | _ => none
          | _ => none
        | _ => none
  | fuel + 1, .objMembers first, s =>
    match trimLeft s with
    | [] => none
    | c :: rest =>
      if c = Char.ofNat 125 then
        if first then some (.members [] rest) else none
      else if c = '"' then
        match scanStringBody rest with
        | some (key, afterKey) =>
          match trimLeft afterKey with
          | ':' :: afterColon =>
            match jsonScan fuel .val afterColon with
            | some (.v j r) =>
              match trimLeft r with
              | c' :: r' =>
                if c' = Char.ofNat 125 then some (.members [(key, j)] r')
                else if c' = ',' then
                  match jsonScan fuel (.objMembers false) r' with
                  | some (.members fs r'') =>
                    if fs.isEmpty then none else some (.members ((key, j) :: fs) r'')
                  | _ => none
                else none
              | [] => none
            | _ => none
          | _ => none
        | none => none
      else none

/-- JS `JSON.parse`: scan one value, then require only whitespace to
remain; `none` models the thrown `SyntaxError`. -/
def jsonParse (s : Str) : Option Json :=
  match jsonScan (2 * s.length + 4) .val s with
  | some (.v j rest) => if (trimLeft rest).isEmpty then some j else none
  | _ => none

/- `JSON.stringify` (default form: no spacing; string escaping is not
modelled, no input relevant to the claims needs it), with its two
companions rendering comma-separated element and member lists. -/
mutual
def Json.stringify : Json → Str
  | .null => "null".toList
  | .bool true => "true".toList
  | .bool false => "false".toList
  | .num n => (Int.repr n).toList
  | .str s => '"' :: s ++ ['"']
  | .arr xs => '[' :: JsonList.stringifyElems xs ++ [']']
  | .obj fs => Char.ofNat 123 :: JsonFields.stringifyMembers fs ++ [Char.ofNat 125]

def JsonList.stringifyElems : JsonList → Str
  | .nil => []
  | .cons j .nil => Json.stringify j
  | .cons j (.cons j' tail) =>
    Json.stringify j ++ ',' :: JsonList.stringifyElems (.cons j' tail)

def JsonFields.stringifyMembers : JsonFields → Str
  | .nil => []
  | .cons k v .nil => '"' :: k ++ ['"', ':'] ++ Json.stringify v
  | .cons k v (.cons k' v' tail) =>
    '"' :: k ++ ['"', ':'] ++ Json.stringify v
      ++ ',' :: JsonFields.stringifyMembers (.cons k' v' tail)
end

/-- An HTTP response as the provider clients observe it: the status code
and the JSON body, `none` when the body is not parseable JSON. -/
structure HttpResponse where
  status : Nat
  body : Option Json

/-- Fetch `Response.ok`: status in the 2xx range. -/
def respOk (r : HttpResponse) : Bool := decide (200 ≤ r.status) && decide (r.status < 300)

/-- The outcome of one provider call, after the transport completed. -/
inductive CallOutcome where
  | success (text : Str)
  | thrown (message : Str)
  | invalidJson
deriving DecidableEq, Repr

/-- Lookup of `errData.error?.message`, kept only when it is a string (the only
shape the providers emit). -/
def jsErrorMessage (errData : Json) : Option Str :=
  ((errData.getField? "error".toList).bind
    (fun e => e.getField? "message".toList)).bind Json.asString?

/-- Lookup `data.candidates?.[0]?.content?.parts?.[0]?.text`: the optional-chain
lookup of the first Gemini candidate's text. -/
def geminiCandidateText? (data : Json) : Option Str :=
  (((((data.getField? "candidates".toList).bind (fun j => j.getIdx? 0)).bind
    (fun j => j.getField? "content".toList)).bind
    (fun j => j.getField? "parts".toList)).bind (fun j => j.getIdx? 0)).bind
    (fun j => (j.getField? "text".toList).bind Json.asString?)

/-- Extraction `data.candidates?.[0]?.content?.parts?.[0]?.text || ''`. -/
def geminiExtractText (data : Json) : Str := (geminiCandidateText? data).getD []

/-- Lookup `data.choices?.[0]?.message?.content`: the optional-chain lookup of
the first OpenAI choice's content. -/
def openAIContentText? (data : Json) : Option Str :=
  (((data.getField? "choices".toList).bind (fun j => j.getIdx? 0)).bind
    (fun j => j.getField? "message".toList)).bind
    (fun j => (j.getField? "content".toList).bind Json.asString?)

/-- Extraction `data.choices?.[0]?.message?.content || ''`. -/
def openAIExtractText (data : Json) : Str := (openAIContentText? data).getD []

/-- The fallback error message of `callGemini` on a non-ok response. -/
def geminiGenericErrorMessage (status : Nat) : Str :=
  "Gemini API Error: ".toList ++ (Nat.repr status).toList

/-- The fallback error message of `callOpenAI` on a non-ok response. -/
def openAIGenericErrorMessage (status : Nat) (errData : Json) : Str :=
  "OpenAI API Error: ".toList ++ (Nat.repr status).toList
    ++ " - ".toList ++ Json.stringify errData

/-- src/services/geminiService.ts, `callGemini`, response handling:
non-ok responses throw `errData.error?.message ||`
a generic status-coded message (an unparseable error body degrades to
`\x7b\x7d` via the `.catch`); ok responses extract the first candidate's
text, defaulting to the empty string.  `invalidJson` models
`response.json()` rejecting on an ok response with an unparseable
body. -/
def callGeminiResult (resp : HttpResponse) : CallOutcome :=
  if !respOk resp then
    let errData := resp.body.getD (.obj .nil)
    .thrown (jsOrStr ((jsErrorMessage errData).getD [])
      (geminiGenericErrorMessage resp.status))
  else
    match resp.body with
    | none => .invalidJson
    | some data => .success (geminiExtractText data)

/-- src/services/geminiService.ts, `callOpenAI`, response handling:
as `callGeminiResult`, but the generic message also embeds
`JSON.stringify (errData)` and the text is extracted from
`choices[0].message.content`. -/
def callOpenAIResult (resp : HttpResponse) : CallOutcome :=
  if !respOk resp then
    let errData := resp.body.getD (.obj .nil)
    .thrown (jsOrStr ((jsErrorMessage errData).getD [])
      (openAIGenericErrorMessage resp.status errData))
  else
    match resp.body with
    | none => .invalidJson
    | some data => .success (openAIExtractText data)

/-- One element of a Gemini-format `parts` array. -/
structure MessagePart where
  text : Str
deriving DecidableEq, Repr

/-- One element of a Gemini-format `contents` array. -/
structure ContentItem where
  role : Str
  parts : List MessagePart
deriving DecidableEq, Repr

/-- One OpenAI-format message. -/
structure ChatMessage where
  role : Str
  content : Str
deriving DecidableEq, Repr

/-- src/services/geminiService.ts, `mapGeminiToOpenAI`: prepends the
system instruction (when given) as a `system` message and remaps
role `model` to `assistant`, everything else to `user`, joining the
parts with a newline. -/
def mapGeminiToOpenAI (contents : List ContentItem) (systemInstruction : Option Str) :
    List ChatMessage :=
  (match systemInstruction with
   | some s => [⟨"system".toList, s⟩]
   | none => []) ++
  contents.map (fun item =>
    ⟨if item.role = "model".toList then "assistant".toList else "user".toList,
     List.intercalate "\n".toList (item.parts.map MessagePart.text)⟩)

/-- The generation-config override argument threaded through `callAI`
(`none` fields model absent keys, so that the object-spread semantics of
`\x7b temperature: config.temperature, ...override \x7d` is exact). -/
structure GenerationConfigOverride where
  temperature : Option ℚ := none
  responseMimeType : Option Str := none
deriving DecidableEq, Repr

/-- The temperature `callGemini` puts in `generationConfig`: the
override key wins over `config.temperature` when present (spread after
it). -/
def geminiSentTemperature (config : EngineConfig) (override : GenerationConfigOverride) : ℚ :=
  override.temperature.getD config.temperature

/-- The temperature `callOpenAI` puts in the body: always
`config.temperature`; the override is not consulted for it. -/
def openAISentTemperature (config : EngineConfig) (override : GenerationConfigOverride) : ℚ :=
  config.temperature

/-- src/services/geminiService.ts, `callOpenAI`, JSON-mode fix-up: when
the override requests `application/json` and `messages[0].content` does
not contain `"JSON"`, that first message is amended in place before the
body is serialized.  (On an empty message list the source would throw on
`messages[0]`; the claims only concern calls with a system message, so
that branch is mapped to the empty list.) -/
def applyJsonModeFix (override : GenerationConfigOverride) (messages : List ChatMessage) :
    List ChatMessage :=
  if override.responseMimeType = some "application/json".toList then
    match messages with
    | [] => []
    | m :: rest =>
      if jsIncludes m.content "JSON".toList then m :: rest
      else { m with content := m.content ++ "\nIMPORTANT: Output strictly in JSON format.".toList } :: rest
  else messages

/-- The messages `callOpenAI` serializes into the request body. -/
def openAISentMessages (contents : List ContentItem) (systemInstruction : Option Str)
    (override : GenerationConfigOverride) : List ChatMessage :=
  applyJsonModeFix override (mapGeminiToOpenAI contents systemInstruction)

/-- src/services/geminiService.ts, `summarizeTopic`: its only override is
`temperature: 0.3`. -/
def summarizeTopicOverride : GenerationConfigOverride :=
  { temperature := some (3/10), responseMimeType := none }

/-- The temperature actually sent by `summarizeTopic`, after routing by
`config.provider` (`callAI`). -/
def summarizeTopicSentTemperature (config : EngineConfig) : ℚ :=
  match config.provider with
  | .openai => openAISentTemperature config summarizeTopicOverride
  | .gemini => geminiSentTemperature config summarizeTopicOverride

/-- Conversion back to an ordinary list of values. -/
def JsonList.toList : JsonList → List Json
  | .nil => []
  | .cons j tail => j :: tail.toList

/-- src/services/geminiService.ts, `autonomousScan`, result shaping:
`Array.isArray (result) ? result : [result]` — a bare object is wrapped
into a one-element array. -/
def scanNormalizeParsed : Json → List Json
  | .arr xs => xs.toList
  | j => [j]

/-- src/services/geminiService.ts, `generateSoulReport`, result shaping:
the parsed value is returned as-is (`return JSON.parse (cleanJSON (text))`),
with no array unwrapping. -/
def soulReportParsed (text : Str) : Option Json := jsonParse (cleanJSON text)

/-- One triple returned by the autonomous scan. -/
structure ScanResult where
  textSelection : Str
  comment : Str
  topic : Str
deriving DecidableEq, Repr

/-- The author tag of an annotation. -/
inductive Author where
  | ai
  | user
deriving DecidableEq, Repr

/-- src/types.ts, `Annotation`, restricted to the fields the scan paths
write.  `id` keeps the numeric value `Date.now () + idx` (the source
stores its decimal string); `position` is always `(0, 0)` on these
paths. -/
structure Annotation where
  id : Nat
  bookId : Str
  textSelection : Str
  comment : Str
  author : Author
  topic : Str
  isAutonomous : Bool
  timestamp : Nat
  personaId : Str
  startOffset : Nat
  endOffset : Nat
deriving DecidableEq, Repr

/-- src/unnamed/part_004, `handlePageChange`:
`bookAnnotations.map (a => a.textSelection)`. -/
def existingSelections (annos : List Annotation) : List Str :=
  annos.map (fun a => a.textSelection)

/-- src/unnamed/part_004, `handlePageChange`, acceptance loop: each
result whose `textSelection` is already among the selections captured
before the scan is dropped; accepted results become annotations with
`id = now + idx` (`idx` the index in the raw result list). -/
def buildScanAnnotations (now : Nat) (bookId personaId : Str)
    (existing : List Str) (results : List ScanResult) : List Annotation :=
  (results.enum).filterMap (fun p =>
    if p.2.textSelection ∈ existing then none
    else some
      { id := now + p.1, bookId := bookId, textSelection := p.2.textSelection,
        comment := p.2.comment, author := .ai, topic := p.2.topic,
        isAutonomous := true, timestamp := now, personaId := personaId,
        startOffset := 0, endOffset := 0 })

/-- src/unnamed/part_004, `handleSaveCreatedBook`, initial scan: every
result is inserted, with no deduplication. -/
def buildInitialScanAnnotations (now : Nat) (bookId personaId : Str)
    (results : List ScanResult) : List Annotation :=
  (results.enum).map (fun p =>
    { id := now + p.1, bookId := bookId, textSelection := p.2.textSelection,
      comment := p.2.comment, author := .ai, topic := p.2.topic,
      isAutonomous := true, timestamp := now, personaId := personaId,
      startOffset := 0, endOffset := 0 })

/-- One observation of the Auto-Memory effect (src/unnamed/part_004,
lines 156-193): the dependency values the guard reads. -/
structure MemoryObservation where
  threshold : Nat
  hasActiveBook : Bool
  count : Nat
  hasApiKey : Bool
deriving DecidableEq, Repr

/-- The guard of the Auto-Memory effect:
`threshold > 0 && activeBook && count > 0 && count % threshold === 0 &&
count !== lastConsolidatedCountRef.current && (apiKey || env key)`. -/
def consolidationFires (lastConsolidatedCount : Nat) (o : MemoryObservation) : Bool :=
  decide (0 < o.threshold) && o.hasActiveBook && decide (0 < o.count)
    && decide (o.count % o.threshold = 0)
    && decide (o.count ≠ lastConsolidatedCount) && o.hasApiKey

/-- One observation step of the Auto-Memory effect.  When the guard
passes, `lastConsolidatedCountRef.current` is assigned the observed
count immediately (line 166), before `consolidateMemory` resolves; the
`catch` branch only logs, so `consolidationSucceeds` — the eventual
outcome of the consolidation call — does not influence the ref in
either branch.  Returns the new ref value and whether consolidation was
started. -/
def consolidationStep (lastConsolidatedCount : Nat) (o : MemoryObservation)
    (consolidationSucceeds : Bool) : Nat × Bool :=
  if consolidationFires lastConsolidatedCount o then (o.count, true)
  else (lastConsolidatedCount, false)

/-- The firing pattern of the Auto-Memory effect over a sequence of
observations, each paired with the outcome of its consolidation call
(the scheduler is sequential: an observation is processed after the
previous consolidation settled). -/
def consolidationFiringSeq (lastConsolidatedCount : Nat) :
    List (MemoryObservation × Bool) → List Bool
  | [] => []
  | ob :: rest =>
    let r := consolidationStep lastConsolidatedCount ob.1 ob.2
    r.2 :: consolidationFiringSeq r.1 rest

/-- One page-change observation (src/unnamed/part_004,
`handlePageChange`): the page content and the guard inputs. -/
structure PageObservation where
  content : Str
  autonomousReading : Bool
  hasActiveBook : Bool
  hasApiKey : Bool
deriving DecidableEq, Repr

/-- The guard of `handlePageChange`, sequential semantics (the claims
quantify over observation sequences in which each scan settles before
the next observation, so `isAutoScanning` is false at every step):
returns the new `lastScannedPageRef` value and whether a scan started.
The ref is written only when a scan starts. -/
def scanStep (lastScanned : Option Str) (o : PageObservation) : Option Str × Bool :=
  if !o.autonomousReading || !o.hasActiveBook || lastScanned = some o.content then
    (lastScanned, false)
  else if !o.hasApiKey then (lastScanned, false)
  else (some o.content, true)

/-- The contents for which a scan was started, in order, over a
sequence of page-change observations. -/
def scanStarts (lastScanned : Option Str) : List PageObservation → List Str
  | [] => []
  | o :: rest =>
    let r := scanStep lastScanned o
    (if r.2 then [o.content] else []) ++ scanStarts r.1 rest

/-! ### Helper lemmas: whitespace trimming -/

lemma trimLeft_eq_self_of_wsFree {s : Str} (h : wsFree s = true) : trimLeft s = s := by
  cases s with
  | nil => rfl
  | cons c rest =>
    simp only [wsFree, List.all_cons, Bool.and_eq_true] at h
    have hc : isJsWs c = false := by
      simpa using h.1
    simp [trimLeft, List.dropWhile_cons, hc]

lemma wsFree_reverse {s : Str} (h : wsFree s = true) : wsFree s.reverse = true := by
  simp only [wsFree, List.all_eq_true] at h ⊢
  exact fun c hc => h c (by simpa using hc)

lemma trimRight_eq_self_of_wsFree {s : Str} (h : wsFree s = true) : trimRight s = s := by
  unfold trimRight
  rw [show s.reverse.dropWhile isJsWs = s.reverse from
    trimLeft_eq_self_of_wsFree (wsFree_reverse h), List.reverse_reverse]

lemma jsTrim_eq_self_of_wsFree {s : Str} (h : wsFree s = true) : jsTrim s = s := by
  unfold jsTrim
  rw [trimLeft_eq_self_of_wsFree h, trimRight_eq_self_of_wsFree h]

lemma wsFree_append {a b : Str} : wsFree (a ++ b) = (wsFree a && wsFree b) := by
  simp [wsFree, List.all_append]

lemma jsTrim_cons_ws {c : Char} {s : Str} (hc : isJsWs c = true) :
    jsTrim (c :: s) = jsTrim s := by
  simp [jsTrim, trimLeft, List.dropWhile_cons, hc]

lemma trimRight_append_ws {s : Str} {c : Char} (hc : isJsWs c = true) :
    trimRight (s ++ [c]) = trimRight s := by
  simp [trimRight, List.reverse_append, List.dropWhile_cons, hc]

lemma jsTrim_append_ws {s : Str} {c : Char} (hc : isJsWs c = true) :
    jsTrim (s ++ [c]) = jsTrim s := by
  unfold jsTrim trimLeft
  rw [List.dropWhile_append]
  by_cases h : (s.dropWhile isJsWs).isEmpty
  · simp only [h, if_true, List.dropWhile_cons, hc, List.dropWhile_nil]
    rw [List.isEmpty_iff] at h
    rw [h]
  · simp only [h, if_false]
    exact trimRight_append_ws hc

/-! ### Helper lemmas: global pattern removal (`stripPat`) -/

lemma stripPatAux_fuelInv (pat : Str) :
    ∀ (fuel fuel' : Nat) (s : Str), s.length ≤ fuel → s.length ≤ fuel' →
      stripPatAux pat fuel s = stripPatAux pat fuel' s := by
  intro fuel
  induction fuel with
  | zero =>
    intro fuel' s hs _
    have hnil : s = [] := List.eq_nil_of_length_eq_zero (Nat.le_zero.mp hs)
    subst hnil
    cases fuel' <;> rfl
  | succ f ih =>
    intro fuel' s hs hs'
    cases s with
    | nil => cases fuel' <;> rfl
    | cons c rest =>
      cases fuel' with
      | zero => simp at hs'
      | succ f' =>
        simp only [stripPatAux]
        by_cases h : (pat.isPrefixOf (c :: rest) && !pat.isEmpty) = true
        · rw [if_pos h, if_pos h]
          apply ih
          · simp only [List.length_drop]
            simp only [List.length_cons] at hs
            omega
          · simp only [List.length_drop]
            simp only [List.length_cons] at hs'
            omega
        · rw [if_neg h, if_neg h]
          simp only [List.length_cons] at hs hs'
          rw [ih f' rest (by omega) (by omega)]

lemma stripPat_cons_of_ne {pt : Str} {c : Char} {s : Str} (hc : c ≠ backtick) :
    stripPat (backtick :: pt) (c :: s) = c :: stripPat (backtick :: pt) s := by
  have hbeq : (backtick == c) = false := beq_eq_false_iff_ne.mpr (Ne.symm hc)
  simp only [stripPat, List.length_cons, stripPatAux]
  rw [if_neg (by simp [List.isPrefixOf, hbeq])]

lemma stripPat_btFree {pt s : Str} (h : btFree s = true) :
    stripPat (backtick :: pt) s = s := by
  induction s with
  | nil => rfl
  | cons c rest ih =>
    simp only [btFree, List.all_cons, Bool.and_eq_true, bne_iff_ne, ne_eq] at h
    have hrest : btFree rest = true := by
      simpa [btFree] using h.2
    rw [stripPat_cons_of_ne h.1, ih hrest]

lemma stripPat_clean_append {pt t rest : Str} (h : btFree t = true) :
    stripPat (backtick :: pt) (t ++ rest) = t ++ stripPat (backtick :: pt) rest := by
  induction t with
  | nil => simp
  | cons c t' ih =>
    simp only [btFree, List.all_cons, Bool.and_eq_true, bne_iff_ne, ne_eq] at h
    have ht' : btFree t' = true := by
      simpa [btFree] using h.2
    rw [List.cons_append, stripPat_cons_of_ne h.1, ih ht', List.cons_append]

lemma stripPat_match_head {pat rest : Str} (hne : pat ≠ []) :
    stripPat pat (pat ++ rest) = stripPat pat rest := by
  cases pat with
  | nil => exact absurd rfl hne
  | cons p ps =>
    have hpre : ((p :: ps).isPrefixOf ((p :: ps) ++ rest)) = true :=
      List.isPrefixOf_iff_prefix.mpr (List.prefix_append _ _)
    have hlen : ((p :: ps) ++ rest).length = (ps ++ rest).length + 1 := by
      simp
    rw [stripPat, hlen]
    simp only [List.cons_append, stripPatAux]
    rw [if_pos (by simp [hpre])]
    have hdrop : (ps ++ rest).drop ((p :: ps).length - 1) = rest := by
      simp only [List.length_cons, Nat.add_sub_cancel]
      exact List.drop_left ps rest
    simp only [List.append_eq]
    rw [hdrop]
    exact stripPatAux_fuelInv _ _ _ _ (by simp only [List.length_append]; omega) (le_refl _)

/-! ### Helper lemmas: suffix tests on appended strings -/

lemma suffix_append_iff_of_le {pat s t : Str} (h : pat.length ≤ t.length) :
    pat <:+ (s ++ t) ↔ pat <:+ t := by
  constructor
  · intro hp
    rw [← List.reverse_prefix] at hp ⊢
    rw [List.reverse_append] at hp
    rw [List.prefix_iff_eq_take] at hp ⊢
    rw [List.take_append_eq_append_take] at hp
    simpa [Nat.sub_eq_zero_of_le h] using hp
  · intro hp
    exact hp.trans (List.suffix_append s t)

lemma jsEndsWith_eq_true {s pat : Str} (h : pat <:+ s) : jsEndsWith s pat = true :=
  decide_eq_true h

lemma jsEndsWith_eq_false {s pat : Str} (h : ¬ pat <:+ s) : jsEndsWith s pat = false :=
  decide_eq_false h

lemma jsIncludes_eq_true {s pat : Str} (h : pat <:+: s) : jsIncludes s pat = true :=
  decide_eq_true h

/-! ### Helper lemmas: endpoint base normalization -/

lemma geminiNormalizeBase_self {b : Str} (hws : wsFree b = true) (hne : b ≠ [])
    (hslash : jsEndsWith b "/".toList = false)
    (hver : jsEndsWith b "v1beta".toList = false) :
    geminiNormalizeBase b = b := by
  simp only [geminiNormalizeBase, jsOrStr, if_neg hne, jsTrim_eq_self_of_wsFree hws,
    hslash, Bool.false_eq_true, if_false, hver]

lemma geminiNormalizeBase_slash {b : Str} (hws : wsFree b = true)
    (hver : jsEndsWith b "v1beta".toList = false) :
    geminiNormalizeBase (b ++ "/".toList) = b := by
  have hne : b ++ "/".toList ≠ [] := by simp
  have hws' : wsFree (b ++ "/".toList) = true := by
    rw [wsFree_append, hws]
    decide
  have hsl : jsEndsWith (b ++ "/".toList) "/".toList = true :=
    jsEndsWith_eq_true (List.suffix_append b _)
  have hdrop : (b ++ "/".toList).dropLast = b := by
    rw [List.dropLast_append_of_ne_nil _ (by decide)]
    simp [show ("/".toList).dropLast = [] from rfl]
  simp only [geminiNormalizeBase, jsOrStr, if_neg hne, jsTrim_eq_self_of_wsFree hws',
    hsl, if_true, hdrop, hver, Bool.false_eq_true, if_false]

lemma geminiNormalizeBase_version {b : Str} (hws : wsFree b = true) :
    geminiNormalizeBase (b ++ "/v1beta".toList) = b := by
  have hne : b ++ "/v1beta".toList ≠ [] := by simp
  have hws' : wsFree (b ++ "/v1beta".toList) = true := by
    rw [wsFree_append, hws]
    decide
  have hsl : jsEndsWith (b ++ "/v1beta".toList) "/".toList = false := by
    apply jsEndsWith_eq_false
    rw [suffix_append_iff_of_le (by decide)]
    decide
  have hver : jsEndsWith (b ++ "/v1beta".toList) "v1beta".toList = true :=
    jsEndsWith_eq_true ((by decide : "v1beta".toList <:+ "/v1beta".toList).trans
      (List.suffix_append b _))
  have htake : (b ++ "/v1beta".toList).take
      ((b ++ "/v1beta".toList).length - ("v1beta".toList.length + 1)) = b := by
    have h7 : ("/v1beta".toList).length = 7 := by decide
    have h6 : ("v1beta".toList).length = 6 := by decide
    rw [List.length_append, h7, h6]
    have : b.length + 7 - (6 + 1) = b.length := by omega
    rw [this]
    exact List.take_left b _
  simp only [geminiNormalizeBase, jsOrStr, if_neg hne, jsTrim_eq_self_of_wsFree hws',
    hsl, Bool.false_eq_true, if_false, hver, if_true, htake]

lemma geminiNormalizeBase_version_slash {b : Str} (hws : wsFree b = true) :
    geminiNormalizeBase (b ++ "/v1beta/".toList) = b := by
  have hne : b ++ "/v1beta/".toList ≠ [] := by simp
  have hws' : wsFree (b ++ "/v1beta/".toList) = true := by
    rw [wsFree_append, hws]
    decide
  have hsl : jsEndsWith (b ++ "/v1beta/".toList) "/".toList = true :=
    jsEndsWith_eq_true ((by decide : "/".toList <:+ "/v1beta/".toList).trans
      (List.suffix_append b _))
  have hdrop : (b ++ "/v1beta/".toList).dropLast = b ++ "/v1beta".toList := by
    rw [List.dropLast_append_of_ne_nil _ (by decide)]
    rfl
  have hver : jsEndsWith (b ++ "/v1beta".toList) "v1beta".toList = true :=
    jsEndsWith_eq_true ((by decide : "v1beta".toList <:+ "/v1beta".toList).trans
      (List.suffix_append b _))
  have htake : (b ++ "/v1beta".toList).take
      ((b ++ "/v1beta".toList).length - ("v1beta".toList.length + 1)) = b := by
    have h7 : ("/v1beta".toList).length = 7 := by decide
    have h6 : ("v1beta".toList).length = 6 := by decide
    rw [List.length_append, h7, h6]
    have : b.length + 7 - (6 + 1) = b.length := by omega
    rw [this]
    exact List.take_left b _
  simp only [geminiNormalizeBase, jsOrStr, if_neg hne, jsTrim_eq_self_of_wsFree hws',
    hsl, if_true, hdrop, hver, htake]

lemma openAINormalizeBase_self {b : Str} (hws : wsFree b = true) (hne : b ≠ [])
    (hslash : jsEndsWith b "/".toList = false)
    (hcc : jsIncludes b "/chat/completions".toList = false) :
    openAINormalizeBase b
      = (if jsEndsWith b "/v1".toList then b else b ++ "/v1".toList)
          ++ "/chat/completions".toList := by
  simp only [openAINormalizeBase, jsOrStr, if_neg hne, jsTrim_eq_self_of_wsFree hws,
    hslash, Bool.false_eq_true, if_false, hcc, Bool.not_false, if_true]
  cases hv : jsEndsWith b "/v1".toList <;> simp [hv]

lemma openAINormalizeBase_slash {b : Str} (hws : wsFree b = true) (hne : b ≠ [])
    (hslash : jsEndsWith b "/".toList = false) :
    openAINormalizeBase (b ++ "/".toList) = openAINormalizeBase b := by
  have hne' : b ++ "/".toList ≠ [] := by simp
  have hws' : wsFree (b ++ "/".toList) = true := by
    rw [wsFree_append, hws]
    decide
  have hsl : jsEndsWith (b ++ "/".toList) "/".toList = true :=
    jsEndsWith_eq_true (List.suffix_append b _)
  have hdrop : (b ++ "/".toList).dropLast = b := by
    rw [List.dropLast_append_of_ne_nil _ (by decide)]
    simp [show ("/".toList).dropLast = [] from rfl]
  simp only [openAINormalizeBase, jsOrStr, if_neg hne', if_neg hne,
    jsTrim_eq_self_of_wsFree hws', jsTrim_eq_self_of_wsFree hws,
    hsl, if_true, hdrop, hslash, Bool.false_eq_true, if_false]

lemma wsFree_openAINormalizeBase {b : Str} (hws : wsFree b = true) (hne : b ≠ [])
    (hslash : jsEndsWith b "/".toList = false)
    (hcc : jsIncludes b "/chat/completions".toList = false) :
    wsFree (openAINormalizeBase b) = true := by
  rw [openAINormalizeBase_self hws hne hslash hcc]
  cases hv : jsEndsWith b "/v1".toList <;>
    simp [wsFree_append, hws] <;> decide

lemma openAINormalizeBase_has_cc {b : Str} (hws : wsFree b = true) (hne : b ≠ [])
    (hslash : jsEndsWith b "/".toList = false)
    (hcc : jsIncludes b "/chat/completions".toList = false) :
    "/chat/completions".toList <:+ openAINormalizeBase b := by
  rw [openAINormalizeBase_self hws hne hslash hcc]
  exact List.suffix_append _ _

lemma openAINormalizeBase_fixed {u : Str} (hws' : wsFree u = true) (hne' : u ≠ [])
    (hsl' : jsEndsWith u "/".toList = false)
    (hcc' : jsIncludes u "/chat/completions".toList = true) :
    openAINormalizeBase u = u := by
  simp only [openAINormalizeBase, jsOrStr, if_neg hne', jsTrim_eq_self_of_wsFree hws',
    hsl', Bool.false_eq_true, if_false, hcc', Bool.not_true]

lemma openAINormalizeBase_idem {b : Str} (hws : wsFree b = true) (hne : b ≠ [])
    (hslash : jsEndsWith b "/".toList = false)
    (hcc : jsIncludes b "/chat/completions".toList = false) :
    openAINormalizeBase (openAINormalizeBase b) = openAINormalizeBase b := by
  have hsuf := openAINormalizeBase_has_cc hws hne hslash hcc
  have hws' := wsFree_openAINormalizeBase hws hne hslash hcc
  have hne' : openAINormalizeBase b ≠ [] := by
    intro h0
    rw [h0] at hsuf
    have := List.eq_nil_of_suffix_nil hsuf
    simp at this
  have hsl' : jsEndsWith (openAINormalizeBase b) "/".toList = false := by
    apply jsEndsWith_eq_false
    obtain ⟨x, hx⟩ := hsuf
    rw [← hx, suffix_append_iff_of_le (by decide)]
    decide
  have hcc' : jsIncludes (openAINormalizeBase b) "/chat/completions".toList = true :=
    jsIncludes_eq_true hsuf.isInfix
  exact openAINormalizeBase_fixed hws' hne' hsl' hcc'

lemma openAINormalizeBase_one_suffix {b : Str} (hws : wsFree b = true) (hne : b ≠ [])
    (hslash : jsEndsWith b "/".toList = false)
    (hcc : jsIncludes b "/chat/completions".toList = false) :
    ∃ x, openAINormalizeBase b = x ++ "/v1/chat/completions".toList
      ∧ jsIncludes x "/chat/completions".toList = false := by
  rw [openAINormalizeBase_self hws hne hslash hcc]
  by_cases hv : jsEndsWith b "/v1".toList = true
  · have hsfx : "/v1".toList <:+ b := by
      simpa [jsEndsWith] using hv
    obtain ⟨y, hy⟩ := hsfx
    refine ⟨y, ?_, ?_⟩
    · rw [if_pos hv, ← hy, List.append_assoc]
      rfl
    · by_contra hinc
      have hyb : y <:+: b := by
        rw [← hy]
        exact (List.prefix_append y _).isInfix
      have : jsIncludes b "/chat/completions".toList = true := by
        apply jsIncludes_eq_true
        have hyc : "/chat/completions".toList <:+: y := by
          simpa [jsIncludes] using hinc
        exact hyc.trans hyb
      rw [this] at hcc
      cases hcc
  · refine ⟨b, ?_, hcc⟩
    rw [if_neg hv, List.append_assoc]
    rfl

/-! ### Helper lemmas: the response extractor on fenced input -/

lemma cleanJSON_btFree {t : Str} (h : btFree t = true) : cleanJSON t = jsTrim t := by
  have e1 : "```json".toList = backtick :: "``json".toList := by decide
  have e2 : "```".toList = backtick :: "``".toList := by decide
  unfold cleanJSON
  rw [e1, e2, stripPat_btFree h, stripPat_btFree h]

lemma cleanJSON_json_fence {t : Str} (h : btFree t = true) :
    cleanJSON ("```json\n".toList ++ (t ++ "\n```".toList)) = jsTrim t := by
  have e1 : "```json".toList = backtick :: "``json".toList := by decide
  have e2 : "```".toList = backtick :: "``".toList := by decide
  have hne : "```json".toList ≠ [] := by decide
  have hnlb : ('\n' != backtick) = true := by decide
  have hall : t.all (fun c => c != backtick) = true := h
  have hu : btFree (('\n' :: t) ++ ['\n']) = true := by
    simp only [btFree, List.all_append, List.all_cons, List.all_nil, Bool.and_eq_true]
    exact ⟨⟨hnlb, hall⟩, hnlb, trivial⟩
  have hshape : "```json\n".toList ++ (t ++ "\n```".toList)
      = "```json".toList ++ ((('\n' :: t) ++ ['\n']) ++ "```".toList) := by
    have a1 : "```json\n".toList = "```json".toList ++ ['\n'] := by rfl
    have a2 : "\n```".toList = '\n' :: "```".toList := by rfl
    rw [a1, a2]
    simp
  have c1 : stripPat (backtick :: "``json".toList) "```".toList = "```".toList := by decide
  have c2 : stripPat (backtick :: "``".toList) (backtick :: "``".toList) = [] := by decide
  unfold cleanJSON
  rw [hshape, stripPat_match_head hne, e1,
    @stripPat_clean_append "``json".toList _ _ hu, c1, e2,
    @stripPat_clean_append "``".toList _ _ hu, c2, List.append_nil,
    List.cons_append, jsTrim_cons_ws (by decide), jsTrim_append_ws (by decide)]

/-! ### Helper lemmas: the autonomous-scan ref guard -/

lemma scanStep_no_start_eq (st : Option Str) (o : PageObservation)
    (h : (scanStep st o).2 = false) : (scanStep st o).1 = st := by
  unfold scanStep at h ⊢
  by_cases h1 : (!o.autonomousReading || !o.hasActiveBook || st = some o.content : Bool) = true
  · rw [if_pos h1]
  · rw [if_neg h1] at h ⊢
    by_cases h2 : (!o.hasApiKey : Bool) = true
    · rw [if_pos h2]
    · rw [if_neg h2] at h
      simp at h

lemma scanStep_start_state (st : Option Str) (o : PageObservation)
    (h : (scanStep st o).2 = true) : (scanStep st o).1 = some o.content := by
  unfold scanStep at h ⊢
  by_cases h1 : (!o.autonomousReading || !o.hasActiveBook || st = some o.content : Bool) = true
  · rw [if_pos h1] at h
    simp at h
  · rw [if_neg h1] at h ⊢
    by_cases h2 : (!o.hasApiKey : Bool) = true
    · rw [if_pos h2] at h
      simp at h
    · rw [if_neg h2]

lemma scanStep_no_start_of_same (st : Option Str) (o : PageObservation)
    (h : st = some o.content) : (scanStep st o).2 = false := by
  unfold scanStep
  rw [if_pos (by simp [h])]

lemma scanStarts_chain (init : Option Str) (seq : List PageObservation) :
    (scanStarts init seq).Chain' (· ≠ ·)
      ∧ ∀ c, init = some c → (scanStarts init seq).head? ≠ some c := by
  induction seq generalizing init with
  | nil => exact ⟨List.chain'_nil, by intro c _ h; cases h⟩
  | cons o rest ih =>
    by_cases hs : (scanStep init o).2 = true
    · have hstate := scanStep_start_state init o hs
      have hne : init ≠ some o.content := by
        intro heq
        rw [scanStep_no_start_of_same init o heq] at hs
        cases hs
      have hrec := ih (some o.content)
      constructor
      · simp only [scanStarts, hs, if_true, List.singleton_append, hstate]
        rw [List.chain'_cons']
        refine ⟨?_, hrec.1⟩
        intro y hy
        intro heq
        exact hrec.2 o.content rfl (by rw [← heq] at hy; simpa using hy)
      · intro c hc heq
        simp only [scanStarts, hs, if_true, List.singleton_append, hstate] at heq
        simp only [List.head?_cons, Option.some_inj] at heq
        exact hne (by rw [hc, heq])
    · have hs' : (scanStep init o).2 = false := by
        simpa using hs
      have hstate := scanStep_no_start_eq init o hs'
      have hrec := ih init
      constructor
      · simpa [scanStarts, hs', hstate] using hrec.1
      · intro c hc
        simpa [scanStarts, hs', hstate] using hrec.2 c hc

/-! ### Claim theorems -/

/-- C1, counterexample: the Auto-Memory effect assigns
`lastConsolidatedCountRef` the observed count when it fires, before the
consolidation call resolves.  At count 50 (threshold 50, ref 0) with a
FAILING consolidation, the ref still becomes 50, and re-observing the
same count no longer fires — the claimed "unchanged ref, soft retry on
re-observation" is false on the code. -/
theorem memory_retry_on_failure_counterexample :
    (consolidationStep 0 ⟨50, true, 50, true⟩ false).1 = 50
      ∧ consolidationFires (consolidationStep 0 ⟨50, true, 50, true⟩ false).1
          ⟨50, true, 50, true⟩ = false := by decide

/-- C1, amended: when the scheduler fires at an observed count, the ref
is updated to that count eagerly, regardless of whether the
consolidation call later succeeds or fails, so a re-observation of the
same count never fires again (there is no retry until the count reaches
a different multiple). -/
theorem memory_ref_updated_eagerly (last : Nat) (o : MemoryObservation) (succ : Bool)
    (h : consolidationFires last o = true) :
    consolidationStep last o succ = (o.count, true)
      ∧ consolidationFires (consolidationStep last o succ).1 o = false := by
  refine ⟨?_, ?_⟩
  · unfold consolidationStep
    rw [if_pos h]
  · unfold consolidationStep
    rw [if_pos h]
    simp [consolidationFires]

/-- Witness for C1 (amended): fired at count 50 with a failing
consolidation, the ref becomes 50 and the guard is closed. -/
theorem memory_ref_updated_eagerly_witness :
    consolidationStep 0 ⟨50, true, 50, true⟩ false = (50, true)
      ∧ consolidationFires (consolidationStep 0 ⟨50, true, 50, true⟩ false).1
          ⟨50, true, 50, true⟩ = false :=
  memory_ref_updated_eagerly 0 ⟨50, true, 50, true⟩ false (by decide)

/-- C2, counterexample: with threshold 50, an active book, observed
count 50, last-consolidated 0 — all four conditions of the claimed
"exactly when" guard — but no API key configured, the effect does NOT
fire: the code's guard also requires an API key. -/
theorem memory_guard_requires_api_key_counterexample :
    consolidationFires 0 ⟨50, true, 50, false⟩ = false
      ∧ (0:Nat) < 50 ∧ (⟨50, true, 50, false⟩ : MemoryObservation).hasActiveBook = true
      ∧ (50:Nat) % 50 = 0 ∧ (50:Nat) ≠ 0 := by decide

/-- C2, amended: the idle→firing transition happens exactly when
threshold > 0, a book is active, the book's annotation count is
positive, divisible by the threshold, different from
`lastConsolidatedCount`, AND an API key is configured; under those
conditions the observed count sequence 49→50→50→100 (threshold 50, key
present) fires exactly on the first 50 and on 100. -/
theorem memory_guard_characterization :
    (∀ (last : Nat) (o : MemoryObservation),
      consolidationFires last o = true ↔
        (0 < o.threshold ∧ o.hasActiveBook = true ∧ 0 < o.count
          ∧ o.count % o.threshold = 0 ∧ o.count ≠ last ∧ o.hasApiKey = true))
    ∧ consolidationFiringSeq 0
        [(⟨50, true, 49, true⟩, true), (⟨50, true, 50, true⟩, true),
         (⟨50, true, 50, true⟩, true), (⟨50, true, 100, true⟩, true)]
      = [false, true, false, true] := by
  refine ⟨?_, by decide⟩
  intro last o
  simp [consolidationFires, and_assoc]

/-- Witness for C2 (amended): the guard fires at threshold 50, active
book, count 50, ref 0, key present. -/
theorem memory_guard_characterization_witness :
    consolidationFires 0 ⟨50, true, 50, true⟩ = true :=
  (memory_guard_characterization.1 0 ⟨50, true, 50, true⟩).mpr (by decide)

/-- C4: with existing annotations anchored at X and Y, a scan result
list [X, Z] (Z fresh) yields exactly one accepted annotation, anchored
at Z. -/
theorem scan_dedup_exactly_one (now : Nat) (bookId personaId : Str)
    (a₁ a₂ : Annotation) (X Y Z cx tx cz tz : Str)
    (h₁ : a₁.textSelection = X) (h₂ : a₂.textSelection = Y)
    (hzx : Z ≠ X) (hzy : Z ≠ Y) :
    (buildScanAnnotations now bookId personaId (existingSelections [a₁, a₂])
        [⟨X, cx, tx⟩, ⟨Z, cz, tz⟩]).map (fun a => a.textSelection) = [Z] := by
  simp [buildScanAnnotations, existingSelections, List.enum, List.enumFrom,
    h₁, h₂, hzx, hzy]

/-- Witness for C4 at concrete annotations and selections. -/
theorem scan_dedup_exactly_one_witness :
    (buildScanAnnotations 1000 "b".toList "p".toList
        (existingSelections
          [⟨1, "b".toList, "X".toList, "c".toList, .user, "t".toList, false, 5, "p".toList, 0, 0⟩,
           ⟨2, "b".toList, "Y".toList, "d".toList, .ai, "u".toList, true, 6, "p".toList, 0, 0⟩])
        [⟨"X".toList, "c1".toList, "t1".toList⟩, ⟨"Z".toList, "c2".toList, "t2".toList⟩]).map
      (fun a => a.textSelection) = ["Z".toList] :=
  scan_dedup_exactly_one 1000 "b".toList "p".toList _ _ _ _ _ _ _ _ _
    rfl rfl (by decide) (by decide)

/-- C7, counterexample: with the OpenAI-compatible provider selected and
user temperature 0.7, `summarizeTopic`'s request is sent with
temperature 0.7, not the claimed fixed 0.3 — `callOpenAI` ignores the
generation-config temperature override. -/
theorem summarize_topic_temperature_counterexample :
    summarizeTopicSentTemperature
      { provider := .openai, baseUrl := [], apiKey := [], model := [],
        temperature := 7/10, autonomousReading := false,
        autoAnnotationCount := 2, autoMemoryThreshold := 100 } = 7/10
    ∧ (7/10 : ℚ) ≠ 3/10 := by
  refine ⟨rfl, by norm_num⟩

/-- C7, amended: `summarizeTopic` sends temperature 0.3 for the Gemini
family (the override wins in `generationConfig`), but for the
OpenAI-compatible family the user-configured temperature is sent — the
override is not consulted there. -/
theorem summarize_topic_temperature_by_family (cfg : EngineConfig) :
    (cfg.provider = .gemini → summarizeTopicSentTemperature cfg = 3/10)
    ∧ (cfg.provider = .openai → summarizeTopicSentTemperature cfg = cfg.temperature) := by
  refine ⟨fun h => ?_, fun h => ?_⟩ <;>
    simp [summarizeTopicSentTemperature, h, geminiSentTemperature,
      openAISentTemperature, summarizeTopicOverride]

/-- Witness for C7 (amended) at both providers with user temperature
0.7. -/
theorem summarize_topic_temperature_by_family_witness :
    summarizeTopicSentTemperature
      { provider := .gemini, baseUrl := [], apiKey := [], model := [],
        temperature := 7/10, autonomousReading := false,
        autoAnnotationCount := 2, autoMemoryThreshold := 100 } = 3/10
    ∧ summarizeTopicSentTemperature
      { provider := .openai, baseUrl := [], apiKey := [], model := [],
        temperature := 7/10, autonomousReading := false,
        autoAnnotationCount := 2, autoMemoryThreshold := 100 } = 7/10 :=
  ⟨(summarize_topic_temperature_by_family _).1 rfl,
   (summarize_topic_temperature_by_family _).2 rfl⟩

/-- C8: an OpenAI-family JSON-mode request with a system message not
containing "JSON" has that first system message amended with the
explicit JSON instruction; one whose system message already contains
"JSON" is sent unmodified. -/
theorem json_mode_amends_system_message (contents : List ContentItem) (s : Str)
    (override : GenerationConfigOverride)
    (hjson : override.responseMimeType = some "application/json".toList) :
    (jsIncludes s "JSON".toList = false →
      openAISentMessages contents (some s) override
        = ⟨"system".toList, s ++ "\nIMPORTANT: Output strictly in JSON format.".toList⟩
            :: mapGeminiToOpenAI contents none)
    ∧ (jsIncludes s "JSON".toList = true →
      openAISentMessages contents (some s) override
        = mapGeminiToOpenAI contents (some s)) := by
  have hmap : mapGeminiToOpenAI contents (some s)
      = ⟨"system".toList, s⟩ :: mapGeminiToOpenAI contents none := by
    simp [mapGeminiToOpenAI]
  refine ⟨fun h => ?_, fun h => ?_⟩ <;>
    simp [openAISentMessages, applyJsonModeFix, hjson, hmap, h] <;>
    simpa using h

/-- Witness for C8: one system prompt without "JSON" (amended) and one
with it (unmodified). -/
theorem json_mode_amends_system_message_witness :
    openAISentMessages [⟨"user".toList, [⟨"hi".toList⟩]⟩]
        (some "Reply tersely.".toList) ⟨none, some "application/json".toList⟩
      = ⟨"system".toList, "Reply tersely.".toList
          ++ "\nIMPORTANT: Output strictly in JSON format.".toList⟩
          :: mapGeminiToOpenAI [⟨"user".toList, [⟨"hi".toList⟩]⟩] none
    ∧ openAISentMessages [⟨"user".toList, [⟨"hi".toList⟩]⟩]
        (some "Output JSON only.".toList) ⟨none, some "application/json".toList⟩
      = mapGeminiToOpenAI [⟨"user".toList, [⟨"hi".toList⟩]⟩]
          (some "Output JSON only.".toList) :=
  ⟨(json_mode_amends_system_message _ _ _ rfl).1 (by decide),
   (json_mode_amends_system_message _ _ _ rfl).2 (by decide)⟩

/-- C9, counterexample: only the LAST scanned content is remembered, so
over the observation sequence A, B, A (scanning enabled, book active,
key present) a scan is started three times — content A is auto-scanned
twice, refuting "at most once per distinct page content string". -/
theorem scan_rescan_counterexample :
    scanStarts none
      [⟨"A".toList, true, true, true⟩, ⟨"B".toList, true, true, true⟩,
       ⟨"A".toList, true, true, true⟩]
      = ["A".toList, "B".toList, "A".toList]
    ∧ (scanStarts none
        [⟨"A".toList, true, true, true⟩, ⟨"B".toList, true, true, true⟩,
         ⟨"A".toList, true, true, true⟩]).count "A".toList = 2 := by decide

/-- C9, amended: over every observation sequence no two CONSECUTIVE
scan starts have the same content, and an observation whose content
equals the currently remembered last-scanned content never starts a
scan; a page content may be re-scanned once a different page was
scanned in between. -/
theorem scan_no_consecutive_rescan (init : Option Str) (seq : List PageObservation)
    (st : Option Str) (o : PageObservation) (hsame : st = some o.content) :
    (scanStarts init seq).Chain' (· ≠ ·) ∧ (scanStep st o).2 = false :=
  ⟨(scanStarts_chain init seq).1, scanStep_no_start_of_same st o hsame⟩

/-- Witness for C9 (amended) on the A, B, A run and an immediate
re-observation of A. -/
theorem scan_no_consecutive_rescan_witness :
    (scanStarts none
      [⟨"A".toList, true, true, true⟩, ⟨"B".toList, true, true, true⟩,
       ⟨"A".toList, true, true, true⟩]).Chain' (· ≠ ·)
    ∧ (scanStep (some "A".toList) ⟨"A".toList, true, true, true⟩).2 = false :=
  scan_no_consecutive_rescan none _ (some "A".toList) ⟨"A".toList, true, true, true⟩ rfl

/-- C10: autonomous-scan deduplication compares only against the
selections captured before the scan — a duplicated fresh selection in
one result list yields two separate annotations (distinct ids now,
now+1) — and the initial scan of a newly saved book inserts every
result with no deduplication. -/
theorem scan_snapshot_dedup_and_initial_unfiltered (now : Nat) (bookId personaId : Str)
    (existing : List Str) (Z c₁ t₁ c₂ t₂ : Str) (hz : Z ∉ existing)
    (results : List ScanResult) :
    ((buildScanAnnotations now bookId personaId existing
        [⟨Z, c₁, t₁⟩, ⟨Z, c₂, t₂⟩]).map (fun a => a.textSelection) = [Z, Z]
      ∧ (buildScanAnnotations now bookId personaId existing
          [⟨Z, c₁, t₁⟩, ⟨Z, c₂, t₂⟩]).map (fun a => a.id) = [now, now + 1])
    ∧ (buildInitialScanAnnotations now bookId personaId results).map
        (fun a => a.textSelection) = results.map (fun r => r.textSelection) := by
  refine ⟨⟨?_, ?_⟩, ?_⟩
  · simp [buildScanAnnotations, List.enum, List.enumFrom, hz]
  · simp [buildScanAnnotations, List.enum, List.enumFrom, hz]
  · have key : ∀ (n : Nat) (rs : List ScanResult),
        ((List.enumFrom n rs).map (fun p =>
          ({ id := now + p.1, bookId := bookId, textSelection := p.2.textSelection,
             comment := p.2.comment, author := .ai, topic := p.2.topic,
             isAutonomous := true, timestamp := now, personaId := personaId,
             startOffset := 0, endOffset := 0 } : Annotation))).map
            (fun a => a.textSelection)
          = rs.map (fun r => r.textSelection) := by
      intro n rs
      induction rs generalizing n with
      | nil => rfl
      | cons r rest ih => simp [List.enumFrom, ih]
    simpa [buildInitialScanAnnotations, List.enum] using key 0 results

/-- Witness for C10 at a concrete duplicated result and a concrete
initial-scan result list. -/
theorem scan_snapshot_dedup_and_initial_unfiltered_witness :
    ((buildScanAnnotations 1000 "b".toList "p".toList ["X".toList]
        [⟨"Z".toList, "c1".toList, "t1".toList⟩,
         ⟨"Z".toList, "c2".toList, "t2".toList⟩]).map
        (fun a => a.textSelection) = ["Z".toList, "Z".toList]
      ∧ (buildScanAnnotations 1000 "b".toList "p".toList ["X".toList]
          [⟨"Z".toList, "c1".toList, "t1".toList⟩,
           ⟨"Z".toList, "c2".toList, "t2".toList⟩]).map
          (fun a => a.id) = [1000, 1000 + 1])
    ∧ (buildInitialScanAnnotations 1000 "b".toList "p".toList
        [⟨"A".toList, "c".toList, "t".toList⟩,
         ⟨"A".toList, "d".toList, "u".toList⟩]).map
        (fun a => a.textSelection)
      = ([⟨"A".toList, "c".toList, "t".toList⟩,
          ⟨"A".toList, "d".toList, "u".toList⟩] : List ScanResult).map
          (fun r => r.textSelection) :=
  scan_snapshot_dedup_and_initial_unfiltered 1000 "b".toList "p".toList
    ["X".toList] "Z".toList "c1".toList "t1".toList "c2".toList "t2".toList
    (by decide) _

/-- C3: endpoint resolution is idempotent for both families.  For the
Gemini family, a base URL already carrying a trailing slash, the
`/v1beta` version segment, or both resolves to the same URL as the bare
base.  For the OpenAI-compatible family, a trailing slash is
insensitive, feeding the resolved URL back in resolves to itself, and
the resolved URL ends in exactly one `/v1/chat/completions` suffix (its
prefix contains no further `/chat/completions` segment).  The
hypotheses restrict the base URL to a well-formed host: nonempty, free
of whitespace, no trailing slash, and not already carrying the
version/path suffix. -/
theorem endpoint_resolution_idempotent (cfg : EngineConfig) (envKey method : Str)
    (hws : wsFree cfg.baseUrl = true) (hne : cfg.baseUrl ≠ [])
    (hslash : jsEndsWith cfg.baseUrl "/".toList = false)
    (hver : jsEndsWith cfg.baseUrl "v1beta".toList = false)
    (hcc : jsIncludes cfg.baseUrl "/chat/completions".toList = false) :
    (getGeminiEndpoint { cfg with baseUrl := cfg.baseUrl ++ "/".toList } envKey method
        = getGeminiEndpoint cfg envKey method
      ∧ getGeminiEndpoint { cfg with baseUrl := cfg.baseUrl ++ "/v1beta".toList } envKey method
        = getGeminiEndpoint cfg envKey method
      ∧ getGeminiEndpoint { cfg with baseUrl := cfg.baseUrl ++ "/v1beta/".toList } envKey method
        = getGeminiEndpoint cfg envKey method)
    ∧ (getOpenAIEndpoint { cfg with baseUrl := cfg.baseUrl ++ "/".toList }
        = getOpenAIEndpoint cfg
      ∧ getOpenAIEndpoint { cfg with baseUrl := getOpenAIEndpoint cfg }
        = getOpenAIEndpoint cfg
      ∧ ∃ x, getOpenAIEndpoint cfg = x ++ "/v1/chat/completions".toList
          ∧ jsIncludes x "/chat/completions".toList = false) := by
  have hg := geminiNormalizeBase_self hws hne hslash hver
  refine ⟨⟨?_, ?_, ?_⟩, ?_, ?_, ?_⟩
  · simp only [getGeminiEndpoint]
    rw [geminiNormalizeBase_slash hws hver, hg]
  · simp only [getGeminiEndpoint]
    rw [geminiNormalizeBase_version hws, hg]
  · simp only [getGeminiEndpoint]
    rw [geminiNormalizeBase_version_slash hws, hg]
  · simp only [getOpenAIEndpoint]
    exact openAINormalizeBase_slash hws hne hslash
  · simp only [getOpenAIEndpoint]
    exact openAINormalizeBase_idem hws hne hslash hcc
  · simp only [getOpenAIEndpoint]
    exact openAINormalizeBase_one_suffix hws hne hslash hcc

/-- Witness for C3 at the concrete host `https://api.example.com`. -/
theorem endpoint_resolution_idempotent_witness :
    (getGeminiEndpoint
        { provider := .gemini, baseUrl := "https://api.example.com".toList ++ "/".toList,
          apiKey := "k".toList, model := "m".toList, temperature := 7/10,
          autonomousReading := false, autoAnnotationCount := 2,
          autoMemoryThreshold := 100 } "e".toList "generateContent".toList
        = getGeminiEndpoint
        { provider := .gemini, baseUrl := "https://api.example.com".toList,
          apiKey := "k".toList, model := "m".toList, temperature := 7/10,
          autonomousReading := false, autoAnnotationCount := 2,
          autoMemoryThreshold := 100 } "e".toList "generateContent".toList
      ∧ getGeminiEndpoint
        { provider := .gemini, baseUrl := "https://api.example.com".toList ++ "/v1beta".toList,
          apiKey := "k".toList, model := "m".toList, temperature := 7/10,
          autonomousReading := false, autoAnnotationCount := 2,
          autoMemoryThreshold := 100 } "e".toList "generateContent".toList
        = getGeminiEndpoint
        { provider := .gemini, baseUrl := "https://api.example.com".toList,
          apiKey := "k".toList, model := "m".toList, temperature := 7/10,
          autonomousReading := false, autoAnnotationCount := 2,
          autoMemoryThreshold := 100 } "e".toList "generateContent".toList
      ∧ getGeminiEndpoint
        { provider := .gemini, baseUrl := "https://api.example.com".toList ++ "/v1beta/".toList,
          apiKey := "k".toList, model := "m".toList, temperature := 7/10,
          autonomousReading := false, autoAnnotationCount := 2,
          autoMemoryThreshold := 100 } "e".toList "generateContent".toList
        = getGeminiEndpoint
        { provider := .gemini, baseUrl := "https://api.example.com".toList,
          apiKey := "k".toList, model := "m".toList, temperature := 7/10,
          autonomousReading := false, autoAnnotationCount := 2,
          autoMemoryThreshold := 100 } "e".toList "generateContent".toList)
    ∧ (getOpenAIEndpoint
        { provider := .gemini, baseUrl := "https://api.example.com".toList ++ "/".toList,
          apiKey := "k".toList, model := "m".toList, temperature := 7/10,
          autonomousReading := false, autoAnnotationCount := 2,
          autoMemoryThreshold := 100 }
        = getOpenAIEndpoint
        { provider := .gemini, baseUrl := "https://api.example.com".toList,
          apiKey := "k".toList, model := "m".toList, temperature := 7/10,
          autonomousReading := false, autoAnnotationCount := 2,
          autoMemoryThreshold := 100 }
      ∧ getOpenAIEndpoint
        { provider := .gemini,
          baseUrl := getOpenAIEndpoint
            { provider := .gemini, baseUrl := "https://api.example.com".toList,
              apiKey := "k".toList, model := "m".toList, temperature := 7/10,
              autonomousReading := false, autoAnnotationCount := 2,
              autoMemoryThreshold := 100 },
          apiKey := "k".toList, model := "m".toList, temperature := 7/10,
          autonomousReading := false, autoAnnotationCount := 2,
          autoMemoryThreshold := 100 }
        = getOpenAIEndpoint
        { provider := .gemini, baseUrl := "https://api.example.com".toList,
          apiKey := "k".toList, model := "m".toList, temperature := 7/10,
          autonomousReading := false, autoAnnotationCount := 2,
          autoMemoryThreshold := 100 }
      ∧ ∃ x, getOpenAIEndpoint
          { provider := .gemini, baseUrl := "https://api.example.com".toList,
            apiKey := "k".toList, model := "m".toList, temperature := 7/10,
            autonomousReading := false, autoAnnotationCount := 2,
            autoMemoryThreshold := 100 } = x ++ "/v1/chat/completions".toList
          ∧ jsIncludes x "/chat/completions".toList = false) :=
  endpoint_resolution_idempotent
    { provider := .gemini, baseUrl := "https://api.example.com".toList,
      apiKey := "k".toList, model := "m".toList, temperature := 7/10,
      autonomousReading := false, autoAnnotationCount := 2,
      autoMemoryThreshold := 100 } "e".toList "generateContent".toList
    (by decide) (by decide) (by decide) (by decide) (by decide)

/-- C5: for both provider clients, a non-2xx response throws with the
provider's own (string, nonempty) `error.message` when present, and
otherwise with the client's generic status-coded message; a 2xx
response whose envelope lacks the expected text field
(`candidates[0].content.parts[0].text` / `choices[0].message.content`)
yields the empty string rather than throwing. -/
theorem provider_error_and_empty_handling (resp : HttpResponse) (m : Str) (data : Json) :
    (respOk resp = false →
      (jsErrorMessage (resp.body.getD (.obj .nil)) = some m → m ≠ [] →
          callGeminiResult resp = .thrown m
            ∧ callOpenAIResult resp = .thrown m)
        ∧ (jsErrorMessage (resp.body.getD (.obj .nil)) = none →
          callGeminiResult resp = .thrown (geminiGenericErrorMessage resp.status)
            ∧ callOpenAIResult resp
              = .thrown (openAIGenericErrorMessage resp.status (resp.body.getD (.obj .nil)))))
    ∧ (respOk resp = true → resp.body = some data →
        (geminiCandidateText? data = none → callGeminiResult resp = .success [])
          ∧ (openAIContentText? data = none → callOpenAIResult resp = .success [])) := by
  constructor
  · intro hok
    constructor
    · intro hmsg hm
      constructor <;>
        simp [callGeminiResult, callOpenAIResult, hok, hmsg, jsOrStr, hm]
    · intro hmsg
      constructor <;>
        simp [callGeminiResult, callOpenAIResult, hok, hmsg, jsOrStr]
  · intro hok hbody
    constructor <;> intro htext <;>
      simp [callGeminiResult, callOpenAIResult, hok, hbody,
        geminiExtractText, openAIExtractText, htext]

/-- Witness for C5: a 404 with a provider message, a 500 with an
unparseable body, and a 200 with an empty-object envelope, for both
families. -/
theorem provider_error_and_empty_handling_witness :
    (callGeminiResult
        ⟨404, some (.obj (.cons "error".toList
          (.obj (.cons "message".toList (.str "boom".toList) .nil)) .nil))⟩
      = .thrown "boom".toList
      ∧ callOpenAIResult
        ⟨404, some (.obj (.cons "error".toList
          (.obj (.cons "message".toList (.str "boom".toList) .nil)) .nil))⟩
      = .thrown "boom".toList)
    ∧ (callGeminiResult ⟨500, none⟩ = .thrown (geminiGenericErrorMessage 500)
      ∧ callOpenAIResult ⟨500, none⟩
        = .thrown (openAIGenericErrorMessage 500 (.obj .nil)))
    ∧ (callGeminiResult ⟨200, some (.obj .nil)⟩ = .success []
      ∧ callOpenAIResult ⟨200, some (.obj .nil)⟩ = .success []) :=
  ⟨((provider_error_and_empty_handling
      ⟨404, some (.obj (.cons "error".toList
        (.obj (.cons "message".toList (.str "boom".toList) .nil)) .nil))⟩
      "boom".toList (.obj .nil)).1 (by decide)).1 (by decide) (by decide),
   ((provider_error_and_empty_handling ⟨500, none⟩ [] (.obj .nil)).1
      (by decide)).2 (by decide),
   ((provider_error_and_empty_handling ⟨200, some (.obj .nil)⟩ [] (.obj .nil)).2
      (by decide) rfl).1 (by decide),
   ((provider_error_and_empty_handling ⟨200, some (.obj .nil)⟩ [] (.obj .nil)).2
      (by decide) rfl).2 (by decide)⟩

/-- C6, counterexample: `cleanJSON` only strips the `json` language tag,
so a response fenced with tag `python` around the JSON text `\x7b\x7d`
no longer parses (the tag word survives into the payload), while the
unwrapped text parses fine; and `generateSoulReport` returns the parsed
value as-is, so a single-element array `[\x7b\x7d]` stays an array and
is NOT normalized to the object. -/
theorem extractor_counterexample :
    jsonParse (cleanJSON "```python\n\x7b\x7d\n```".toList) = none
    ∧ jsonParse (cleanJSON "\x7b\x7d".toList) = some (.obj .nil)
    ∧ soulReportParsed "[\x7b\x7d]".toList = some (.arr (.cons (.obj .nil) .nil))
    ∧ soulReportParsed "[\x7b\x7d]".toList ≠ some (.obj .nil) := by
  refine ⟨by rfl, by rfl, by rfl, by decide⟩

/-- C6, amended: a response fenced with the `json` language tag cleans
to exactly the trimmed unwrapped text, hence parses to the same value
as the unwrapped JSON; and the array-expecting caller
(`autonomousScan`) accepts a bare object and normalizes it to a
one-element array.  (Other language tags are NOT stripped, and the
object-expecting caller `generateSoulReport` performs no array
unwrapping — see the counterexample.) -/
theorem extractor_json_fence_and_array_wrap (t : Str) (h : btFree t = true) :
    (cleanJSON ("```json\n".toList ++ (t ++ "\n```".toList)) = cleanJSON t
      ∧ jsonParse (cleanJSON ("```json\n".toList ++ (t ++ "\n```".toList)))
          = jsonParse (cleanJSON t))
    ∧ ∀ fs, scanNormalizeParsed (.obj fs) = [.obj fs] := by
  have h1 := cleanJSON_json_fence h
  have h2 := cleanJSON_btFree h
  exact ⟨⟨by rw [h1, h2], by rw [h1, h2]⟩, fun fs => rfl⟩

/-- Witness for C6 (amended) at the fenced object `\x7b\x7d`. -/
theorem extractor_json_fence_and_array_wrap_witness :
    (cleanJSON ("```json\n".toList ++ ("\x7b\x7d".toList ++ "\n```".toList))
        = cleanJSON "\x7b\x7d".toList
      ∧ jsonParse (cleanJSON ("```json\n".toList ++ ("\x7b\x7d".toList ++ "\n```".toList)))
          = jsonParse (cleanJSON "\x7b\x7d".toList))
    ∧ scanNormalizeParsed (.obj .nil) = [.obj .nil] :=
  ⟨(extractor_json_fence_and_array_wrap "\x7b\x7d".toList (by decide)).1,
   (extractor_json_fence_and_array_wrap "\x7b\x7d".toList (by decide)).2 .nil⟩
